import Mathlib

/-!
Shallow embedding of the service lifecycle & safety-gated action subsystem of
the VPS-Visual-Dashboard server (`src/server.js`), together with proofs of the
specified properties.  Each definition mirrors one JavaScript function of the
source; stateful/async parts (the disk-breakdown pending map, the HTTP route
handlers) are embedded as explicit state-transition functions on a state type,
following the single-threaded event-loop semantics of the program.

Conventions used throughout:
* JavaScript numbers that the code immediately checks with `Number.isInteger`
  are modelled by the three-valued type `JsNum` (NaN / integer / finite
  non-integer); pids and byte counters are `Int`.
* `null`/`undefined` string inputs are modelled as `Option String` (`none` =
  absent/falsy-missing).
* `String.prototype.includes` is substring containment, `toLowerCase` is
  ASCII lowering, `trim` strips surrounding whitespace.
-/

namespace VPSDash

/-- `sub` occurs as a contiguous run inside the character list. -/
def listContainsSub (sub : List Char) : List Char → Bool
  | [] => sub.isEmpty
  | c :: t => sub.isPrefixOf (c :: t) || listContainsSub sub t

/-- JS `haystack.includes(needle)`: substring containment (empty needle always
matches, as in JS). -/
def strContains (s sub : String) : Bool :=
  listContainsSub sub.toList s.toList

/-- JS `s.toLowerCase()` (the program only compares ASCII text, where
`Char.toLower` agrees with JS). -/
def toLowerStr (s : String) : String :=
  String.mk (s.toList.map Char.toLower)

/-- JS `s.trim()`: strip leading and trailing whitespace. -/
def trimChars (cs : List Char) : List Char :=
  ((cs.dropWhile Char.isWhitespace).reverse.dropWhile Char.isWhitespace).reverse

/-- JS `s.trim()` on strings. -/
def trimStr (s : String) : String :=
  String.mk (trimChars s.toList)

/-- Split on each occurrence of `sep` (JS `s.split(sep)` for a one-character
separator: empty pieces between adjacent separators are kept, `""` yields
`[""]`). -/
def splitOnChar (sep : Char) : List Char → List (List Char)
  | [] => [[]]
  | c :: t =>
    let r := splitOnChar sep t
    if c = sep then [] :: r
    else
      match r with
      | h :: t2 => (c :: h) :: t2
      | [] => [[c]]

/-- `splitOnChar` on strings. -/
def strSplitOn (sep : Char) (s : String) : List String :=
  (splitOnChar sep s.toList).map String.mk

/-- One entry of the process snapshot returned by the process-enumeration
provider (`si.processes().list`): `{pid, name, command}` (the cpu/mem fields
play no role in this subsystem).  A missing `name`/`command` (`p?.name || ''`)
is modelled as the empty string. -/
structure Proc where
  pid : Int
  name : String
  command : String
deriving Repr, DecidableEq

/-- `isMinecraftProcess(p)` (server.js:668-677): the default detection
heuristic.  Case-insensitive: (name contains "java" AND command contains
"minecraft") OR name contains "minecraft" OR command contains the known
installation path fragment "/home/beto/minecraft_n". -/
def isMinecraftProcess (p : Proc) : Bool :=
  let name := toLowerStr p.name
  let cmd := toLowerStr p.command
  (strContains name "java" && strContains cmd "minecraft") ||
  strContains name "minecraft" ||
  strContains cmd "/home/beto/minecraft_n"

/-- Comma-split, trim each piece, drop empty pieces; `[]` on a falsy input.
This is the shared body of `parseMinecraftProcessMatchers`,
`parseAllowedKillProcessMatch` and the pre-numeric stage of
`parseAllowedKillPids` (server.js:650-666, 721-729). -/
def splitCommaTrim (raw : Option String) : List String :=
  match raw with
  | none => []
  | some s =>
    if s = "" then []
    else ((strSplitOn ',' s).map trimStr).filter (fun t => t ≠ "")

/-- `parseMinecraftProcessMatchers(raw)` (server.js:721-729): optional override
matcher list from `MC_PROCESS_MATCH`. -/
def parseMinecraftProcessMatchers (raw : Option String) : List String :=
  splitCommaTrim raw

/-- `parseAllowedKillProcessMatch(raw)` (server.js:660-666). -/
def parseAllowedKillProcessMatch (raw : Option String) : List String :=
  splitCommaTrim raw

/-- `DetectionResult`: `{matched, pid, reason}` as produced by
`detectMinecraftProcess`. -/
structure DetectionResult where
  matched : Bool
  pid : Option Int
  reason : String
deriving Repr, DecidableEq

/-- `detectMinecraftProcess(processList)` (server.js:731-753).  `matchersEnv`
is the value of the `MC_PROCESS_MATCH` environment variable (read inside the
JS function via `process.env`). -/
def detectMinecraftProcess (matchersEnv : Option String) (processList : List Proc) :
    DetectionResult :=
  let matchers := parseMinecraftProcessMatchers matchersEnv
  if matchers.length > 0 then
    let mcProc := processList.find? (fun p =>
      let haystack := toLowerStr (p.name ++ " " ++ p.command)
      matchers.any (fun m => strContains haystack (toLowerStr m)))
    { matched := mcProc.isSome
      pid := mcProc.map Proc.pid
      reason := if mcProc.isSome then "env:MC_PROCESS_MATCH" else "env:MC_PROCESS_MATCH:no-match" }
  else
    let mcProc := processList.find? isMinecraftProcess
    { matched := mcProc.isSome
      pid := mcProc.map Proc.pid
      reason := if mcProc.isSome then "default" else "default:no-match" }

/-! ### JavaScript number coercions

The code only ever inspects `Number(x)` through `Number.isInteger`, `> 0`,
`<= 0` or range checks, so the result of a coercion is modelled three-valued:
NaN, an integer, or a finite non-integer.  `jsNumStr` models `Number(string)`
on the decimal forms (optional sign, digits, optional fractional part,
surrounding whitespace, empty string = 0); hexadecimal/exponent literals are
conservatively mapped to NaN — none of the verified properties depend on
them. -/

inductive JsNum where
  | nan
  | int (n : Int)
  | nonInt
deriving Repr, DecidableEq

/-- Decimal digit list to natural number. -/
def digitsToNat (ds : List Char) : Nat :=
  ds.foldl (fun acc c => acc * 10 + (c.toNat - 48)) 0

/-- `Number(s)` for a string `s` (see the section comment above). -/
def jsNumStr (s : String) : JsNum :=
  let cs := trimChars s.toList
  if cs.isEmpty then .int 0
  else
    let sgn : Int := match cs with
      | '-' :: _ => -1
      | _ => 1
    let rest := match cs with
      | '-' :: t => t
      | '+' :: t => t
      | t => t
    let intDs := rest.takeWhile Char.isDigit
    let rest2 := rest.drop intDs.length
    match rest2 with
    | [] => if intDs.isEmpty then .nan else .int (sgn * digitsToNat intDs)
    | '.' :: frac =>
      if frac.all Char.isDigit && !(intDs.isEmpty && frac.isEmpty) then
        if frac.all (fun c => c = '0') then .int (sgn * digitsToNat intDs)
        else .nonInt
      else .nan
    | _ => .nan

/-- `parseAllowedKillPids(raw)` (server.js:650-658): comma-split, trim, drop
empties, `Number(...)`, keep only positive integers. -/
def parseAllowedKillPids (raw : Option String) : List Int :=
  (splitCommaTrim raw).filterMap (fun s =>
    match jsNumStr s with
    | .int n => if 0 < n then some n else none
    | _ => none)

/-! ### `getPidListeningOnPort` (server.js:679-718)

The two OS commands are oracles: `lsofOut`/`ssOut` are `some stdout` when the
command ran, `none` when it errored (`execCmd` rejects and the `catch` falls
through).  Note two literal regexes of the source, modelled as written:
`split(/s+/)` splits on runs of the character `s` (the backslash is missing in
the source), and `/pid=(d+)/` looks for the literal text `pid=` followed by
one or more literal `d` characters. -/

/-- `String(out).split(/s+/).filter(Boolean)[0]`.  Splitting on each `s` and
dropping empty pieces coincides with splitting on runs of `s` and dropping
empty pieces. -/
def lsofFirstToken (out : String) : Option String :=
  (((strSplitOn 's' (trimStr out))).filter (fun t => t ≠ "")).head?

/-- First match of the literal regex `/pid=(d+)/`: scan left to right for
`pid=` followed by a non-empty run of `d`s; capture that run. -/
def ssPidCapture : List Char → Option String
  | [] => none
  | c :: t =>
    if ['p', 'i', 'd', '='].isPrefixOf (c :: t) then
      let ds := ((c :: t).drop 4).takeWhile (fun x => x = 'd')
      if ds.isEmpty then ssPidCapture t else some (String.mk ds)
    else ssPidCapture t

/-- `getPidListeningOnPort(port)` (server.js:679-718).  `port` is the already
`Number(...)`-coerced argument; `lsofOut` and `ssOut` are the stdout of the
primary (`lsof`) and secondary (`ss`) commands, `none` on command failure.
The stdout strings are trimmed by `execCmd` before parsing. -/
def getPidListeningOnPort (port : JsNum) (lsofOut ssOut : Option String) : Option Int :=
  match port with
  | .int p =>
    if p ≤ 0 then none
    else
      let lsofPid : Option Int :=
        match lsofOut with
        | none => none
        | some out =>
          match (match lsofFirstToken out with
                 | none => JsNum.nan      -- Number(undefined) = NaN
                 | some tok => jsNumStr tok) with
          | .int pid => if 0 < pid then some pid else none
          | _ => none
      match lsofPid with
      | some pid => some pid
      | none =>
        match ssOut with
        | none => none
        | some out =>
          match ssPidCapture (trimChars out.toList) with
          | none => none
          | some cap =>
            match jsNumStr cap with
            | .int pid => if 0 < pid then some pid else none
            | _ => none
  | _ => none

/-! ### Kill authorization (server.js:647-800) -/

/-- The environment a kill-authorization decision is evaluated against: the
fresh process snapshot, the result of the reverse port lookup for the
configured service port, and the two allowlist environment variables. -/
structure KillEnv where
  snapshot : List Proc
  portPid : Option Int
  allowedKillPids : Option String
  allowedKillMatch : Option String
deriving Repr

/-- The fallback stage of `getDetectedMinecraftPid` (server.js:766-773): the
PID owning the listening socket, with the falsy-coalescing `pid || null`. -/
def portPidOrNull (portPid : Option Int) : Option Int :=
  match portPid with
  | some pid => if pid ≠ 0 then some pid else none   -- `return pid || null`
  | none => none

/-- `getDetectedMinecraftPid()` body (server.js:756-774), with
`portPidOrNull` as the fallback stage. -/
def getDetectedMinecraftPid (env : KillEnv) : Option Int :=
  match env.snapshot.find? isMinecraftProcess with
  | some p => if p.pid ≠ 0 then some p.pid else portPidOrNull env.portPid
  | none => portPidOrNull env.portPid

/-- `KillDecision`: `{allowed, reason}`. -/
structure KillDecision where
  allowed : Bool
  reason : String
deriving Repr, DecidableEq

/-- Rule 3 of `isKillPidAllowed` (server.js:790-797): look the pid up in the
snapshot, lowercase `"name command"` (empty parts for a missing process), and
test the configured substrings.  `false` whenever no matchers are configured
(`some` over an empty list). -/
def killMatchHit (env : KillEnv) (pid : Int) : Bool :=
  let matchers := parseAllowedKillProcessMatch env.allowedKillMatch
  let proc := env.snapshot.find? (fun p => p.pid = pid)
  let haystack :=
    ((match proc with | some p => p.name | none => "") ++ " " ++
     (match proc with | some p => p.command | none => ""))
  matchers.any (fun m => strContains (toLowerStr haystack) (toLowerStr m))

/-- `isKillPidAllowed(pid)` (server.js:776-800): default-deny gate, rules in
priority order — detected service PID, explicit PID allowlist, name/command
substring allowlist, deny. -/
def isKillPidAllowed (env : KillEnv) (pid : Int) : KillDecision :=
  let mcHit : Bool :=
    match getDetectedMinecraftPid env with
    | some m => decide (m ≠ 0) && decide (pid = m)   -- `mcPid && pid === mcPid`
    | none => false
  if mcHit then { allowed := true, reason := "minecraft" }
  else if (parseAllowedKillPids env.allowedKillPids).contains pid then
    { allowed := true, reason := "env:ALLOWED_KILL_PIDS" }
  else if (parseAllowedKillProcessMatch env.allowedKillMatch).length > 0 then
    if killMatchHit env pid then
      { allowed := true, reason := "env:ALLOWED_KILL_PROCESS_MATCH" }
    else { allowed := false, reason := "not-allowlisted" }
  else { allowed := false, reason := "not-allowlisted" }

/-- Modelled from the spec: the spec's `KillDecision.reason` enum names the
allowlist cases `env:allowlist-pid` / `env:allowlist-match`, abstracting the
environment-variable names that appear in the code's reason strings.  This is
the correspondence between the code's strings and the spec's enum labels. -/
def specReasonLabel (r : String) : String :=
  if r = "env:ALLOWED_KILL_PIDS" then "env:allowlist-pid"
  else if r = "env:ALLOWED_KILL_PROCESS_MATCH" then "env:allowlist-match"
  else r

/-! ### Kill route (server.js:803-823) -/

/-- Is `c` a hexadecimal digit? -/
def isHexDigit (c : Char) : Bool :=
  c.isDigit || (97 ≤ c.toNat && c.toNat ≤ 102) || (65 ≤ c.toNat && c.toNat ≤ 70)

/-- Hex digit list to natural number. -/
def hexToNat (ds : List Char) : Nat :=
  ds.foldl (fun acc c =>
    acc * 16 +
      (if c.toNat ≥ 97 then c.toNat - 87
       else if c.toNat ≥ 65 then c.toNat - 55
       else c.toNat - 48)) 0

/-- JS `parseInt(s)` (radix unspecified): skip leading whitespace, optional
sign, `0x`/`0X` switches to hexadecimal, then the longest digit prefix;
`none` models NaN (no digits). -/
def parseIntJS (s : String) : Option Int :=
  let cs := s.toList.dropWhile Char.isWhitespace
  let sgn : Int := match cs with
    | '-' :: _ => -1
    | _ => 1
  let rest := match cs with
    | '-' :: t => t
    | '+' :: t => t
    | t => t
  match rest with
  | '0' :: x :: t =>
    if x = 'x' || x = 'X' then
      let ds := t.takeWhile isHexDigit
      if ds.isEmpty then none else some (sgn * hexToNat ds)
    else
      some (sgn * digitsToNat (rest.takeWhile Char.isDigit))
  | _ =>
    let ds := rest.takeWhile Char.isDigit
    if ds.isEmpty then none else some (sgn * digitsToNat ds)

/-- Outcome of `POST /api/processes/:pid/kill`: `signalled pid` means the raw
process-signal primitive `process.kill(pid, SIGTERM)` is invoked with that
pid; the error outcomes are returned before it is reached. -/
inductive KillOutcome where
  | badRequest
  | forbidden (pid : Int)
  | signalled (pid : Int)
deriving Repr, DecidableEq

/-- The kill route handler (server.js:803-823): `parseInt` the path param,
reject falsy or non-positive pids with 400, authorize, then signal. -/
def killRoute (env : KillEnv) (pidParam : String) : KillOutcome :=
  match parseIntJS pidParam with
  | none => .badRequest
  | some pid =>
    if pid = 0 || pid ≤ 0 then .badRequest   -- `if (!pid || pid <= 0)`
    else if (isKillPidAllowed env pid).allowed then .signalled pid
    else .forbidden pid

/-! ### Monthly bandwidth accumulator (server.js:69-128) -/

/-- The parts of a JS `Date` the accumulator reads: UTC year, UTC month
(`getUTCMonth()`, 0-based) and the ISO rendering used for `lastUpdated`. -/
structure DateU where
  utcFullYear : Nat
  utcMonth0 : Nat
  iso : String
deriving Repr, DecidableEq

/-- `String(m).padStart(2, '0')` for the 1-based month number. -/
def pad2 (n : Nat) : String :=
  if n < 10 then "0" ++ toString n else toString n

/-- `monthKey(date)` (server.js:71-76): `"YYYY-MM"` from the UTC year/month. -/
def monthKey (d : DateU) : String :=
  toString d.utcFullYear ++ "-" ++ pad2 (d.utcMonth0 + 1)

/-- The persisted `BandwidthRecord` (`data/bandwidth.json`). -/
structure BandwidthRecord where
  month : String
  monthBytes : Int
  lastTotal : Int
  lastUpdated : String
deriving Repr, DecidableEq

/-- `updateMonthlyBandwidth({rxBytes, txBytes, now})` (server.js:96-128),
returning the record as persisted by `saveBandwidthStore`.  `store` is the
record loaded by `loadBandwidthStore` (`none` when the file is missing or
unreadable, which initializes a record baselined at the current total). -/
def updateMonthlyBandwidth (store : Option BandwidthRecord) (rxBytes txBytes : Int)
    (now : DateU) : BandwidthRecord :=
  let currentTotal : Int := max 0 (rxBytes + txBytes)
  let key := monthKey now
  let store0 := match store with
    | some s => s
    | none => { month := key, monthBytes := 0, lastTotal := currentTotal, lastUpdated := now.iso }
  if store0.month ≠ key then
    { month := key, monthBytes := 0, lastTotal := currentTotal, lastUpdated := now.iso }
  else
    let lastTotal := max 0 store0.lastTotal
    let delta := if currentTotal ≥ lastTotal then currentTotal - lastTotal else 0
    { month := store0.month
      monthBytes := max 0 (store0.monthBytes + delta)
      lastTotal := currentTotal
      lastUpdated := now.iso }

/-! ### Disk usage breakdown (server.js:295-463) -/

/-- A parsed `du` output entry.  Byte counts are exact naturals (the program's
inputs never reach the ≈10^309-digit range where JS `Number` would round to
`Infinity` and the `isFinite` guard at server.js:325 would drop the line; with
exact naturals that guard and the `bytes < 0` guard are identically true). -/
structure DuEntry where
  bytes : Nat
  path : String
deriving Repr, DecidableEq

/-- One (already trimmed, non-empty) line against the regex
`^(\d+)\s+(.+)$`: a maximal digit prefix, at least one whitespace character,
then a non-empty remainder (the path). -/
def parseDuLine (line : String) : Option DuEntry :=
  let cs := line.toList
  let ds := cs.takeWhile Char.isDigit
  let rest1 := cs.drop ds.length
  let ws := rest1.takeWhile Char.isWhitespace
  let rest := rest1.drop ws.length
  if ds.isEmpty || ws.isEmpty || rest.isEmpty then none
  else some { bytes := digitsToNat ds, path := String.mk rest }

/-- `parseDuBytesOutput(output)` (server.js:314-329): split on newlines, trim,
drop blank lines, keep the lines matching the byte/path pattern. -/
def parseDuBytesOutput (output : String) : List DuEntry :=
  (((strSplitOn '\n' output).map trimStr).filter (fun l => l ≠ "")).filterMap
    parseDuLine

/-- The comparator `(a, b) => b.bytes - a.bytes` (server.js:408): `a` may
stay before `b` exactly when `b.bytes - a.bytes ≤ 0`. -/
def duDescOrder (a b : DuEntry) : Prop :=
  b.bytes ≤ a.bytes

instance : DecidableRel duDescOrder := fun a b => Nat.decLe b.bytes a.bytes

instance : IsTotal DuEntry duDescOrder := ⟨fun a b => Nat.le_total b.bytes a.bytes⟩

instance : IsTrans DuEntry duDescOrder := ⟨fun _ _ _ hab hbc => Nat.le_trans hbc hab⟩

/-- The pure result pipeline of `getDiskUsageBreakdown` (server.js:402-410):
parse the scan output, drop the mount's own line, sort descending by bytes,
truncate to `limit`.  JS `Array.prototype.sort` is required to be stable, and
a stable sort's output is uniquely determined by the comparator and the input
order, so the (stable) insertion sort reproduces it exactly. -/
def diskBreakdownEntries (output mount : String) (limit : Nat) : List DuEntry :=
  let items := (parseDuBytesOutput output).filter (fun i => i.path ≠ mount)
  (items.insertionSort duDescOrder).take limit

/-- `validateDiskBreakdownMount(mount)` (server.js:302-312):
`String(mount || '/')` coerces the empty string to `/`; anything else that is
not `/` is a 400 error. -/
def validateDiskBreakdownMount (mount : String) : Option (Nat × String) :=
  if (if mount = "" then "/" else mount) ≠ "/" then some (400, "Invalid mount") else none

/-- `parseBoundedInt(value, {name, min, max, defaultValue})`
(server.js:349-367).  `value` is the `Number(...)` view of the query
parameter; `none` covers both an absent parameter (the destructuring default)
and the empty string (the `value === ''` branch) — both produce the default,
which for this route always lies inside the bounds. -/
def parseBoundedInt (value : Option JsNum) (name : String) (lo hi dflt : Int) :
    Except (Nat × String) Int :=
  match value with
  | none => .ok dflt
  | some (.int n) =>
    if n < lo || n > hi then .error (400, "Invalid " ++ name) else .ok n
  | some _ => .error (400, "Invalid " ++ name)   -- NaN / non-integer

/-- Outcome of the validation phase of `getDiskUsageBreakdown`
(server.js:365-371): `scan` means control reaches the cache/coalescing/`du`
stage with the resolved parameters; `error` means the request was rejected
before the scan command could ever be invoked. -/
inductive BreakdownOutcome where
  | error (statusCode : Nat) (msg : String)
  | scan (mount : String) (depth limit : Int)
deriving Repr, DecidableEq

/-- The validation phase of `getDiskUsageBreakdown({mount, depth, limit})`
(server.js:365-371), exactly in source order: resolve the mount, validate it,
bound-check `depth` (1–3, default 1) then `limit` (1–50, default 12). -/
def diskBreakdownCheck (mount : String) (depth limit : Option JsNum) : BreakdownOutcome :=
  let resolvedMount := if mount = "" then "/" else mount
  match validateDiskBreakdownMount resolvedMount with
  | some (s, m) => .error s m
  | none =>
    match parseBoundedInt depth "depth" 1 3 1 with
    | .error (s, m) => .error s m
    | .ok d =>
      match parseBoundedInt limit "limit" 1 50 12 with
      | .error (s, m) => .error s m
      | .ok l => .scan resolvedMount d l

/-- `DISK_BREAKDOWN_CACHE_TTL_MS` (server.js:298). -/
def DISK_BREAKDOWN_CACHE_TTL_MS : Int := 60000

/-- The shared mutable state of the disk-breakdown scanner
(server.js:299-300, 365-435): the TTL cache (`diskBreakdownCache`, modelled by
its keys and insertion times), the pending-request map
(`diskBreakdownPending`, modelled by its key set), and a counter of how many
times the underlying scan command (`execFileFn('du', ...)`) has been
invoked. -/
structure ScannerState where
  cache : List (String × Int)
  pending : List String
  scanCount : Nat
deriving Repr, DecidableEq

/-- The cache-hit test `cached && (Date.now() - cached.at) < TTL`
(server.js:377-378). -/
def cacheFresh (now : Int) (key : String) (st : ScannerState) : Bool :=
  match st.cache.lookup key with
  | some t => decide (now - t < DISK_BREAKDOWN_CACHE_TTL_MS)
  | none => false

/-- One call of `getDiskUsageBreakdown` past validation, as executed
atomically by the single-threaded event loop (server.js:375-426): return the
fresh cached value if any; else attach to an in-flight scan for the same key
if one is pending; else invoke the scan command (counted) and register the
promise in the pending map.  The promise body runs synchronously up to its
first `await`, so the scan invocation and the `pending.set` happen in the
same event-loop turn as the checks. -/
def scanRequest (now : Int) (key : String) (st : ScannerState) : ScannerState :=
  if cacheFresh now key st then st
  else if st.pending.contains key then st
  else { st with pending := key :: st.pending, scanCount := st.scanCount + 1 }

/-- Settlement of an in-flight scan for `key` (server.js:420-435): on success
the result is cached (`Map.set`: replace any previous binding); in both
outcomes the `finally` block deletes the key from the pending map. -/
def scanComplete (now : Int) (key : String) (success : Bool) (st : ScannerState) :
    ScannerState :=
  let st1 :=
    if success then
      { st with cache := (key, now) :: st.cache.eraseP (fun kv => kv.1 = key) }
    else st
  { st1 with pending := st1.pending.erase key }

/-! ### Start action (server.js:861-935) -/

/-- The branch taken by `POST /api/services/minecraft/start` after fetching
the snapshot and probing the port: `alreadyRunning` is the immediate success
response returned before `runCommandDetached` is reached; `spawn` means the
handler proceeds to launch the start command (and then to the verification
loop). -/
inductive StartAction where
  | alreadyRunning (pid : Option Int)
  | spawn
deriving Repr, DecidableEq

/-- The already-running short-circuit of the start handler
(server.js:869-882): `if (listening && proc.matched) return ...` with
`proc = detectMinecraftProcess(processes.list)`. -/
def startDecision (matchersEnv : Option String) (listening : Bool)
    (snapshot : List Proc) : StartAction :=
  let proc := detectMinecraftProcess matchersEnv snapshot
  if listening && proc.matched then .alreadyRunning proc.pid else .spawn

/-! ## Theorems -/

/-- `find?` returns the element at the first index whose predicate holds. -/
lemma find?_eq_of_first {α : Type} (p : α → Bool) (l : List α) (i : Nat)
    (hi : i < l.length) (hp : p l[i] = true) (hq : ∀ q ∈ l.take i, p q = false) :
    l.find? p = some l[i] := by
  induction l generalizing i with
  | nil => simp at hi
  | cons a t ih =>
    cases i with
    | zero =>
      have hpa : p a = true := by simpa using hp
      simp [List.find?_cons, hpa]
    | succ k =>
      have ha : p a = false := hq a (by simp)
      have := ih k (by simpa using hi) (by simpa using hp)
        (fun q hq2 => hq q (by simp [hq2]))
      simpa [List.find?_cons, ha] using this

/-- With no override configured, detection is the default-heuristic
first-match. -/
lemma detectMinecraftProcess_none_eq (l : List Proc) :
    detectMinecraftProcess none l =
      { matched := (l.find? isMinecraftProcess).isSome
        pid := (l.find? isMinecraftProcess).map Proc.pid
        reason :=
          if (l.find? isMinecraftProcess).isSome then "default" else "default:no-match" } := by
  simp [detectMinecraftProcess, parseMinecraftProcessMatchers, splitCommaTrim]

/-- Claim C5: with no override matchers configured, `detectService` returns
the first process of the snapshot satisfying the default heuristic
(`isMinecraftProcess`: case-insensitively, name contains "java" and command
contains "minecraft", or name contains "minecraft", or command contains the
installation path fragment) with `matched = true`, that process's pid and
reason `"default"`; over a snapshot with no matching process — the empty
snapshot included — it returns `matched = false`, `pid = null`, reason
`"default:no-match"`.  Both branches are total (the function never throws). -/
theorem detectService_default_heuristic (l : List Proc) :
    (∀ (i : Nat) (hi : i < l.length),
        isMinecraftProcess l[i] = true →
        (∀ q ∈ l.take i, isMinecraftProcess q = false) →
        detectMinecraftProcess none l =
          { matched := true, pid := some l[i].pid, reason := "default" }) ∧
    ((∀ q ∈ l, isMinecraftProcess q = false) →
        detectMinecraftProcess none l =
          { matched := false, pid := none, reason := "default:no-match" }) := by
  constructor
  · intro i hi hp hq
    rw [detectMinecraftProcess_none_eq, find?_eq_of_first isMinecraftProcess l i hi hp hq]
    simp
  · intro hnone
    rw [detectMinecraftProcess_none_eq]
    have : l.find? isMinecraftProcess = none :=
      List.find?_eq_none.mpr (fun x hx => by simp [hnone x hx])
    simp [this]

/-- Witness for C5, at the snapshot of the spec's scenario 2 and at the empty
snapshot. -/
theorem detectService_default_heuristic_witness :
    detectMinecraftProcess none
        [⟨7, "bash", "run stuff"⟩, ⟨2, "java", "x minecraft_server.jar"⟩] =
      { matched := true, pid := some 2, reason := "default" } ∧
    detectMinecraftProcess none [] =
      { matched := false, pid := none, reason := "default:no-match" } :=
  ⟨(detectService_default_heuristic
        [⟨7, "bash", "run stuff"⟩, ⟨2, "java", "x minecraft_server.jar"⟩]).1
      1 (by decide) (by decide) (by decide),
   (detectService_default_heuristic []).2 (by simp)⟩

/-- The detected service PID is never the (falsy) pid 0: both the heuristic
branch and the port fallback guard with a truthiness test. -/
lemma getDetectedMinecraftPid_ne_zero {env : KillEnv} {m : Int}
    (h : getDetectedMinecraftPid env = some m) : m ≠ 0 := by
  have hport : ∀ q : Option Int, portPidOrNull q = some m → m ≠ 0 := by
    intro q hq
    rcases q with _ | pid
    · simp [portPidOrNull] at hq
    · by_cases hz : pid = 0 <;> simp [portPidOrNull, hz] at hq
      omega
  rcases hf : env.snapshot.find? isMinecraftProcess with _ | p
  · simp only [getDetectedMinecraftPid, hf] at h
    exact hport _ h
  · simp only [getDetectedMinecraftPid, hf] at h
    by_cases hz : p.pid = 0
    · simp [hz] at h
      exact hport _ h
    · simp [hz] at h
      omega

/-- Claim C1: any PID equal to the currently detected target-service PID
(default heuristic over the fresh snapshot, falling back to the reverse
lookup of the listening port's owner) is allowed with reason `"minecraft"`,
whatever the two allowlist environment variables contain. -/
theorem kill_detected_pid_always_allowed (env : KillEnv) (pid : Int)
    (h : getDetectedMinecraftPid env = some pid) :
    isKillPidAllowed env pid = { allowed := true, reason := "minecraft" } := by
  have hne : pid ≠ 0 := getDetectedMinecraftPid_ne_zero h
  simp [isKillPidAllowed, h, hne]

/-- Witness for C1: a snapshot whose second entry matches the heuristic, with
both allowlists configured to unrelated values. -/
theorem kill_detected_pid_always_allowed_witness :
    isKillPidAllowed
        ⟨[⟨9, "node", "serve app"⟩, ⟨5, "java", "run minecraft now"⟩],
          none, some "1,2", some "bash"⟩ 5 =
      { allowed := true, reason := "minecraft" } :=
  kill_detected_pid_always_allowed _ 5 (by decide)

/-- A `killMatchHit` needs at least one configured matcher. -/
lemma killMatchHit_matchers_pos {env : KillEnv} {pid : Int}
    (h : killMatchHit env pid = true) :
    (parseAllowedKillProcessMatch env.allowedKillMatch).length > 0 := by
  unfold killMatchHit at h
  rcases hm : parseAllowedKillProcessMatch env.allowedKillMatch with _ | ⟨a, t⟩
  · rw [hm] at h; simp at h
  · simp [hm]

/-- When rule 1 misses (the pid is not the detected service pid), the gate is
the rule-2/rule-3 cascade. -/
lemma isKillPidAllowed_of_not_detected {env : KillEnv} {pid : Int}
    (hd : getDetectedMinecraftPid env ≠ some pid) :
    isKillPidAllowed env pid =
      if (parseAllowedKillPids env.allowedKillPids).contains pid then
        { allowed := true, reason := "env:ALLOWED_KILL_PIDS" }
      else if (parseAllowedKillProcessMatch env.allowedKillMatch).length > 0 then
        if killMatchHit env pid then
          { allowed := true, reason := "env:ALLOWED_KILL_PROCESS_MATCH" }
        else { allowed := false, reason := "not-allowlisted" }
      else { allowed := false, reason := "not-allowlisted" } := by
  rcases hdd : getDetectedMinecraftPid env with _ | m
  · simp [isKillPidAllowed, hdd]
  · have hne : ¬(pid = m) := fun he => hd (by rw [hdd, he])
    simp [isKillPidAllowed, hdd, hne]

/-- Claim C2: the authorization rules fire in strict priority order with the
spec's enum reasons (`specReasonLabel` bridges the code's reason strings and
the spec's labels): a PID that is not the detected service PID but is in the
explicit PID allowlist is allowed with reason `env:allowlist-pid`; a PID
matching only the name/command substring allowlist is allowed with reason
`env:allowlist-match`; a PID matching no rule is denied with reason
`not-allowlisted`. -/
theorem kill_allowlist_priority_order (env : KillEnv) (pid : Int) :
    (getDetectedMinecraftPid env ≠ some pid →
      (parseAllowedKillPids env.allowedKillPids).contains pid = true →
      isKillPidAllowed env pid = { allowed := true, reason := "env:ALLOWED_KILL_PIDS" } ∧
      specReasonLabel (isKillPidAllowed env pid).reason = "env:allowlist-pid") ∧
    (getDetectedMinecraftPid env ≠ some pid →
      (parseAllowedKillPids env.allowedKillPids).contains pid = false →
      killMatchHit env pid = true →
      isKillPidAllowed env pid =
        { allowed := true, reason := "env:ALLOWED_KILL_PROCESS_MATCH" } ∧
      specReasonLabel (isKillPidAllowed env pid).reason = "env:allowlist-match") ∧
    (getDetectedMinecraftPid env ≠ some pid →
      (parseAllowedKillPids env.allowedKillPids).contains pid = false →
      killMatchHit env pid = false →
      isKillPidAllowed env pid = { allowed := false, reason := "not-allowlisted" }) := by
  refine ⟨?_, ?_, ?_⟩
  · intro hd hin
    have hin2 : pid ∈ parseAllowedKillPids env.allowedKillPids := by simpa using hin
    rw [isKillPidAllowed_of_not_detected hd]
    simp [hin2, specReasonLabel]
  · intro hd hnin hk
    have hnin2 : pid ∉ parseAllowedKillPids env.allowedKillPids := by simpa using hnin
    have hl := killMatchHit_matchers_pos hk
    rw [isKillPidAllowed_of_not_detected hd]
    simp [hnin2, hl, hk, specReasonLabel]
  · intro hd hnin hk
    have hnin2 : pid ∉ parseAllowedKillPids env.allowedKillPids := by simpa using hnin
    rw [isKillPidAllowed_of_not_detected hd]
    by_cases hl : (parseAllowedKillProcessMatch env.allowedKillMatch).length > 0 <;>
      simp [hnin2, hk, hl]

/-- Witness for C2: the three rules at concrete environments — an explicit
PID allowlist hit, a name/command substring hit (the spec's scenario 3), and
a total miss. -/
theorem kill_allowlist_priority_order_witness :
    (isKillPidAllowed ⟨[], none, some "3,4", none⟩ 3 =
        { allowed := true, reason := "env:ALLOWED_KILL_PIDS" } ∧
      specReasonLabel (isKillPidAllowed ⟨[], none, some "3,4", none⟩ 3).reason =
        "env:allowlist-pid") ∧
    (isKillPidAllowed ⟨[⟨456, "node", "serve app"⟩], none, none, some "node"⟩ 456 =
        { allowed := true, reason := "env:ALLOWED_KILL_PROCESS_MATCH" } ∧
      specReasonLabel
          (isKillPidAllowed ⟨[⟨456, "node", "serve app"⟩], none, none, some "node"⟩ 456).reason =
        "env:allowlist-match") ∧
    isKillPidAllowed ⟨[], none, none, none⟩ 9 =
      { allowed := false, reason := "not-allowlisted" } :=
  ⟨(kill_allowlist_priority_order ⟨[], none, some "3,4", none⟩ 3).1
      (by decide) (by decide),
   (kill_allowlist_priority_order ⟨[⟨456, "node", "serve app"⟩], none, none, some "node"⟩ 456).2.1
      (by decide) (by decide) (by decide),
   (kill_allowlist_priority_order ⟨[], none, none, none⟩ 9).2.2
      (by decide) (by decide) (by decide)⟩

/-- Claim C3: for every persisted record and sample, with
`currentTotal = rxBytes + txBytes` (counters are non-negative): on a UTC month
change the accumulated total resets to 0 and `lastTotal` rebases to
`currentTotal`; in the same month `lastTotal` always advances to
`currentTotal`, the accumulated total grows by the non-negative delta, and a
counter reset (`currentTotal < lastTotal`) never subtracts. -/
theorem bandwidth_update_postcondition (rec : BandwidthRecord) (rx tx : Int) (now : DateU)
    (hrx : 0 ≤ rx) (htx : 0 ≤ tx) (hmb : 0 ≤ rec.monthBytes) (hlt : 0 ≤ rec.lastTotal) :
    (rec.month ≠ monthKey now →
      (updateMonthlyBandwidth (some rec) rx tx now).monthBytes = 0 ∧
      (updateMonthlyBandwidth (some rec) rx tx now).lastTotal = rx + tx) ∧
    (rec.month = monthKey now →
      (updateMonthlyBandwidth (some rec) rx tx now).lastTotal = rx + tx ∧
      (rec.lastTotal ≤ rx + tx →
        (updateMonthlyBandwidth (some rec) rx tx now).monthBytes
          = rec.monthBytes + (rx + tx - rec.lastTotal)) ∧
      (rx + tx < rec.lastTotal →
        (updateMonthlyBandwidth (some rec) rx tx now).monthBytes = rec.monthBytes)) := by
  have hct : max (0 : Int) (rx + tx) = rx + tx := max_eq_right (by omega)
  have hltm : max (0 : Int) rec.lastTotal = rec.lastTotal := max_eq_right hlt
  constructor
  · intro hne
    constructor <;> simp [updateMonthlyBandwidth, hne, hct]
  · intro heq
    refine ⟨?_, ?_, ?_⟩
    · simp [updateMonthlyBandwidth, heq, hct]
    · intro hle
      simp [updateMonthlyBandwidth, heq, hct, hltm, hle]
      omega
    · intro hlt2
      have hnle : ¬(rec.lastTotal ≤ rx + tx) := by omega
      simp [updateMonthlyBandwidth, heq, hct, hltm, hnle]
      omega

/-- Witness for C3, at the spec's scenario 1: a first in-month sample then a
delta, and a counter reset that leaves the total unchanged. -/
theorem bandwidth_update_postcondition_witness :
    (updateMonthlyBandwidth (some ⟨"2025-10", 0, 3000, "t0"⟩) 1200 2300
        ⟨2025, 9, "t1"⟩).monthBytes = 500 ∧
    (updateMonthlyBandwidth (some ⟨"2025-10", 500, 3500, "t1"⟩) 10 20
        ⟨2025, 9, "t2"⟩).monthBytes = 500 := by
  constructor
  · exact (((bandwidth_update_postcondition ⟨"2025-10", 0, 3000, "t0"⟩ 1200 2300
      ⟨2025, 9, "t1"⟩ (by decide) (by decide) (by decide) (by decide)).2
      (by decide)).2.1 (by decide)).trans (by decide)
  · exact (((bandwidth_update_postcondition ⟨"2025-10", 500, 3500, "t1"⟩ 10 20
      ⟨2025, 9, "t2"⟩ (by decide) (by decide) (by decide) (by decide)).2
      (by decide)).2.2 (by decide)).trans (by decide)

/-- Claim C10: the raw process-signal primitive is only ever reached with a
strictly positive integer PID — the route rejects NaN, zero and negative
parses with 400 before authorization, and `parseAllowedKillPids` discards
non-integer and non-positive allowlist entries, so no configuration can
authorize signalling a non-positive PID or a process group. -/
theorem kill_route_signals_positive_pids_only :
    (∀ (env : KillEnv) (s : String) (p : Int),
        killRoute env s = KillOutcome.signalled p → 0 < p) ∧
    (∀ raw : Option String, ∀ p ∈ parseAllowedKillPids raw, 0 < p) := by
  constructor
  · intro env s p h
    rcases hp : parseIntJS s with _ | pid
    · simp only [killRoute, hp] at h
      simp at h
    · simp only [killRoute, hp] at h
      by_cases hz : pid = 0 ∨ pid ≤ 0
      · rw [if_pos (by simpa using hz)] at h
        simp at h
      · rw [if_neg (by simpa using hz)] at h
        by_cases ha : (isKillPidAllowed env pid).allowed = true
        · rw [if_pos ha] at h
          injection h with h2
          omega
        · rw [if_neg ha] at h
          simp at h
  · intro raw p hp
    unfold parseAllowedKillPids at hp
    rw [List.mem_filterMap] at hp
    obtain ⟨a, _, ha⟩ := hp
    rcases hj : jsNumStr a with _ | n | _ <;> simp only [hj] at ha
    · simp at ha
    · by_cases h0 : 0 < n
      · rw [if_pos h0] at ha
        have := Option.some.inj ha
        omega
      · rw [if_neg h0] at ha
        simp at ha
    · simp at ha

/-- Witness for C10: the detected-service kill of pid 5 is signalled, hence
positive, and an allowlist entry parsed from `"0,-5,abc,3"` is positive. -/
theorem kill_route_signals_positive_pids_only_witness :
    (0 : Int) < 5 ∧ (0 : Int) < 3 :=
  ⟨kill_route_signals_positive_pids_only.1
      ⟨[⟨5, "java", "run minecraft now"⟩], none, none, none⟩ "5" 5 (by decide),
   kill_route_signals_positive_pids_only.2 (some "0,-5,abc,3") 3 (by decide)⟩

/-- Claim C8: when the port probe reports listening and the detector reports
a match on the fresh snapshot, the start handler returns the immediate
already-running success and never reaches the detached-spawn primitive. -/
theorem start_short_circuits_when_already_running (matchersEnv : Option String)
    (listening : Bool) (snapshot : List Proc) (hl : listening = true)
    (hm : (detectMinecraftProcess matchersEnv snapshot).matched = true) :
    startDecision matchersEnv listening snapshot =
      StartAction.alreadyRunning (detectMinecraftProcess matchersEnv snapshot).pid ∧
    startDecision matchersEnv listening snapshot ≠ StartAction.spawn := by
  subst hl
  constructor <;> simp [startDecision, hm]

/-- Witness for C8: a listening port plus a default-heuristic match. -/
theorem start_short_circuits_when_already_running_witness :
    startDecision none true [⟨2, "java", "x minecraft_server.jar"⟩] =
      StartAction.alreadyRunning (some 2) ∧
    startDecision none true [⟨2, "java", "x minecraft_server.jar"⟩] ≠
      StartAction.spawn :=
  ⟨((start_short_circuits_when_already_running none true
        [⟨2, "java", "x minecraft_server.jar"⟩] rfl (by decide)).1).trans (by decide),
   (start_short_circuits_when_already_running none true
        [⟨2, "java", "x minecraft_server.jar"⟩] rfl (by decide)).2⟩

/-- A request whose key is already pending leaves the scanner state
untouched (it attaches to the in-flight scan). -/
lemma scanRequest_of_pending {now : Int} {key : String} {st : ScannerState}
    (h : st.pending.contains key = true) :
    scanRequest now key st = st := by
  have hmem : key ∈ st.pending := by simpa using h
  by_cases hf : cacheFresh now key st <;> simp [scanRequest, hf, hmem]

/-- Claim C4: while a scan for a key is in flight every further identical
request attaches to it, so `n ≥ 1` concurrent identical requests starting
from a state with no fresh cache entry and no pending scan perform exactly
one scan invocation; and completion — success or failure — always removes
the pending-map entry for the key, so a failed scan cannot permanently block
future scans. -/
theorem disk_breakdown_coalescing (st : ScannerState) (key : String) (now : Int) (n : Nat) :
    (st.pending.contains key = true → scanRequest now key st = st) ∧
    (cacheFresh now key st = false → st.pending.contains key = false → 1 ≤ n →
      ((scanRequest now key)^[n] st).scanCount = st.scanCount + 1 ∧
      key ∈ ((scanRequest now key)^[n] st).pending) ∧
    (∀ success : Bool, st.pending.Nodup →
      key ∉ (scanComplete now key success st).pending) := by
  refine ⟨scanRequest_of_pending, ?_, ?_⟩
  · intro hf hc hn
    obtain ⟨m, rfl⟩ : ∃ m, n = m + 1 := ⟨n - 1, by omega⟩
    rw [Function.iterate_succ_apply]
    have hcm : key ∉ st.pending := by simpa using hc
    have hst1 : scanRequest now key st =
        { st with pending := key :: st.pending, scanCount := st.scanCount + 1 } := by
      simp [scanRequest, hf, hcm]
    rw [hst1]
    have hfix : (scanRequest now key)^[m]
        { st with pending := key :: st.pending, scanCount := st.scanCount + 1 } =
        { st with pending := key :: st.pending, scanCount := st.scanCount + 1 } :=
      Function.iterate_fixed (scanRequest_of_pending (by simp)) m
    rw [hfix]
    exact ⟨rfl, by simp⟩
  · intro success hnd hmem
    have hpend : (scanComplete now key success st).pending = st.pending.erase key := by
      cases success <;> simp [scanComplete]
    rw [hpend] at hmem
    exact ((List.Nodup.mem_erase_iff hnd).mp hmem).1 rfl

/-- Witness for C4: three requests from the empty state invoke one scan and
leave the key pending; completing (with failure) removes the pending entry. -/
theorem disk_breakdown_coalescing_witness :
    (((scanRequest 0 "k")^[3] ⟨[], [], 0⟩).scanCount = 1 ∧
      "k" ∈ ((scanRequest 0 "k")^[3] (⟨[], [], 0⟩ : ScannerState)).pending) ∧
    "k" ∉ (scanComplete 0 "k" false ⟨[], ["k"], 1⟩).pending :=
  ⟨(disk_breakdown_coalescing ⟨[], [], 0⟩ "k" 0 3).2.1 (by decide) (by decide) (by decide),
   (disk_breakdown_coalescing ⟨[], ["k"], 1⟩ "k" 0 1).2.2 false (by decide)⟩

/-- Counterexample to claim C6 as stated: the empty mount string differs from
`"/"`, yet the falsy coercion `String(mount || '/')` turns it into the
default root mount, validation passes, and control reaches the scan stage —
the request is not rejected. -/
theorem disk_breakdown_empty_mount_not_rejected :
    ("" ≠ "/") ∧ diskBreakdownCheck "" none none = BreakdownOutcome.scan "/" 1 12 :=
  ⟨by decide, rfl⟩

/-- The parameter views `parseBoundedInt` rejects for bounds `[lo, hi]`: NaN,
a finite non-integer, or an integer outside the bounds. -/
def outOfBounds (v : Option JsNum) (lo hi : Int) : Bool :=
  match v with
  | none => false
  | some (.int n) => decide (n < lo) || decide (hi < n)
  | some _ => true

/-- `parseBoundedInt` fails with the 400 validation error exactly on
out-of-bounds views. -/
lemma parseBoundedInt_error_of_outOfBounds {v : Option JsNum} {lo hi dflt : Int}
    {name : String} (h : outOfBounds v lo hi = true) :
    parseBoundedInt v name lo hi dflt = .error (400, "Invalid " ++ name) := by
  rcases v with _ | j
  · simp [outOfBounds] at h
  · rcases j with _ | n | _
    · rfl
    · simp [outOfBounds] at h
      rcases h with h | h <;> simp [parseBoundedInt, h]
    · rfl

/-- Any error of `parseBoundedInt` is the 400 validation error. -/
lemma parseBoundedInt_error_shape {v : Option JsNum} {lo hi dflt : Int} {name : String}
    {e : Nat × String} (h : parseBoundedInt v name lo hi dflt = .error e) :
    e = (400, "Invalid " ++ name) := by
  rcases v with _ | j
  · cases h
  · rcases j with _ | n | _
    · cases h; rfl
    · by_cases hb : n < lo ∨ hi < n
      · rw [parseBoundedInt, if_pos (by simpa using hb)] at h
        cases h; rfl
      · rw [parseBoundedInt, if_neg (by simpa using hb)] at h
        cases h
    · cases h; rfl

/-- A `some` result of `validateDiskBreakdownMount` is the 400 mount error. -/
lemma validateDiskBreakdownMount_eq {m : String} {x : Nat × String}
    (h : validateDiskBreakdownMount m = some x) : x = (400, "Invalid mount") := by
  unfold validateDiskBreakdownMount at h
  split_ifs at h
  all_goals exact (Option.some.inj h).symm

/-- Claim C6 (amended): a **non-empty** mount different from `"/"` is
rejected with the 400 validation error before the scan stage is reached (the
empty mount string is coerced to the default `"/"`, see the counterexample);
likewise any depth outside 1–3 or limit outside 1–50, or a non-integer
depth/limit, yields a 400 validation error instead of reaching the scan. -/
theorem disk_breakdown_validation_before_scan (mount : String)
    (depth limit : Option JsNum) :
    (mount ≠ "/" → mount ≠ "" →
      diskBreakdownCheck mount depth limit = BreakdownOutcome.error 400 "Invalid mount") ∧
    (outOfBounds depth 1 3 = true →
      ∃ msg, diskBreakdownCheck mount depth limit = BreakdownOutcome.error 400 msg) ∧
    (outOfBounds limit 1 50 = true →
      ∃ msg, diskBreakdownCheck mount depth limit = BreakdownOutcome.error 400 msg) := by
  refine ⟨?_, ?_, ?_⟩
  · intro h1 h2
    simp [diskBreakdownCheck, validateDiskBreakdownMount, h1, h2]
  · intro h
    rcases hv : validateDiskBreakdownMount (if mount = "" then "/" else mount) with _ | x
    · exact ⟨"Invalid depth", by
        simp [diskBreakdownCheck, hv, parseBoundedInt_error_of_outOfBounds h]⟩
    · exact ⟨"Invalid mount", by
        simp [diskBreakdownCheck, hv, validateDiskBreakdownMount_eq hv]⟩
  · intro h
    rcases hv : validateDiskBreakdownMount (if mount = "" then "/" else mount) with _ | x
    · rcases hd : parseBoundedInt depth "depth" 1 3 1 with e | d
      · exact ⟨"Invalid depth", by
          simp [diskBreakdownCheck, hv, hd, parseBoundedInt_error_shape hd]⟩
      · exact ⟨"Invalid limit", by
          simp [diskBreakdownCheck, hv, hd, parseBoundedInt_error_of_outOfBounds h]⟩
    · exact ⟨"Invalid mount", by
        simp [diskBreakdownCheck, hv, validateDiskBreakdownMount_eq hv]⟩

/-- Witness for C6 (amended): a non-root mount, a non-integer depth, and an
out-of-range limit are each rejected with 400. -/
theorem disk_breakdown_validation_before_scan_witness :
    diskBreakdownCheck "/etc" none none = BreakdownOutcome.error 400 "Invalid mount" ∧
    (∃ msg, diskBreakdownCheck "/" (some JsNum.nonInt) none =
      BreakdownOutcome.error 400 msg) ∧
    (∃ msg, diskBreakdownCheck "/" none (some (JsNum.int 51)) =
      BreakdownOutcome.error 400 msg) :=
  ⟨(disk_breakdown_validation_before_scan "/etc" none none).1 (by decide) (by decide),
   (disk_breakdown_validation_before_scan "/" (some JsNum.nonInt) none).2.1 (by decide),
   (disk_breakdown_validation_before_scan "/" none (some (JsNum.int 51))).2.2 (by decide)⟩

/-- Claim C7: the disk-breakdown result is the parsed byte/path pairs minus
the mount's own entry, in descending byte order, truncated to `limit`; in
particular the spec's scenario 4 output yields exactly the `/home` entry. -/
theorem disk_breakdown_entry_pipeline (output mount : String) (limit : Nat) :
    (List.Sorted duDescOrder (diskBreakdownEntries output mount limit) ∧
     (diskBreakdownEntries output mount limit).length ≤ limit ∧
     (∀ e ∈ diskBreakdownEntries output mount limit,
        e.path ≠ mount ∧ e ∈ parseDuBytesOutput output)) ∧
    diskBreakdownEntries "15\t/home\n20\t/\n" "/" 12 =
      [{ bytes := 15, path := "/home" }] := by
  refine ⟨⟨?_, ?_, ?_⟩, by decide⟩
  · exact List.Pairwise.sublist (List.take_sublist _ _)
      (List.sorted_insertionSort duDescOrder
        ((parseDuBytesOutput output).filter (fun i => i.path ≠ mount)))
  · simp [diskBreakdownEntries]
  · intro e he
    have h2 : e ∈ ((parseDuBytesOutput output).filter
        (fun i => i.path ≠ mount)).insertionSort duDescOrder :=
      List.mem_of_mem_take he
    have h3 : e ∈ (parseDuBytesOutput output).filter (fun i => i.path ≠ mount) :=
      (List.perm_insertionSort duDescOrder _).mem_iff.mp h2
    rw [List.mem_filter] at h3
    exact ⟨by simpa using h3.2, h3.1⟩

/-- Witness for C7: the surviving entry of the scenario-4 output is not the
mount line and comes from the parser. -/
theorem disk_breakdown_entry_pipeline_witness :
    ({ bytes := 15, path := "/home" } : DuEntry).path ≠ "/" ∧
    ({ bytes := 15, path := "/home" } : DuEntry) ∈
      parseDuBytesOutput "15\t/home\n20\t/\n" :=
  (disk_breakdown_entry_pipeline "15\t/home\n20\t/\n" "/" 12).1.2.2
    { bytes := 15, path := "/home" } (by decide)

/-- Claim C9, evaluated at the failing inputs: the `ss` fallback's literal
regex `/pid=(d+)/` (server.js:708, missing backslash) cannot extract a PID
from the code's own documented example output, and `split(/s+/)`
(server.js:696, missing backslash) defeats multi-line primary output — in
both situations the function returns `null` where the specified behavior is
to parse PID 1234.  A single-PID primary output still parses, because
trimming alone isolates the number. -/
theorem getPidListeningOnPort_regex_typos :
    getPidListeningOnPort (.int 25565) none
      (some "users:((\"java\",pid=1234,fd=23))") = none ∧
    getPidListeningOnPort (.int 25565) (some "123\n456")
      (some "users:((\"java\",pid=1234,fd=23))") = none ∧
    getPidListeningOnPort (.int 25565) (some "1234\n") none = some 1234 :=
  ⟨rfl, rfl, rfl⟩

end VPSDash
